import Mathlib

/-!
Verification of the octoeb release-management tool (com4/octoeb).

Shallow embedding of the parts of the code the claims are about:
  * `octoeb/utils/formatting.py` — version-string derivation and validation
    (pure string transforms; Python strings are modelled as `List Char`).
  * `octoeb/utils/GitHubAPI.py` — the GitHub REST client; each method is
    modelled as a pure function of the HTTP responses the remote would
    return, raising the same exception values the Python code raises.
  * `octoeb/utils/git.py` — the `on_branch` context manager, modelled as a
    trace of the git subprocess commands it issues.
  * `octoeb/cli.py` — the changelog-ticket linking loops of `qa` and
    `start_release`.

Python exceptions are modelled by an explicit error type (`PyExc`) and
fallible code by `Except PyExc`.
-/

namespace Octoeb

/-! ## Python strings

Python `str` values are modelled as `List Char`.  `pyStr` injects Lean
string literals. -/

def pyStr (s : String) : List Char := s.data

/-- Model of Python `s.split('.')` (helper): returns the first chunk and the
remaining chunks of `s` split at every `'.'`.  Splitting is non-collapsing:
adjacent dots produce empty chunks, exactly as in Python. -/
def splitDotAux : List Char → List Char × List (List Char)
  | [] => ([], [])
  | c :: cs =>
    let r := splitDotAux cs
    if c = '.' then ([], r.1 :: r.2) else (c :: r.1, r.2)

/-- Model of Python `s.split('.')`.  Always returns a nonempty list;
`"".split('.') == ['']` in Python and `splitDot [] = [[]]` here. -/
def splitDot (cs : List Char) : List (List Char) :=
  (splitDotAux cs).1 :: (splitDotAux cs).2

/-- Model of Python `'.'.join(parts)`. -/
def joinDot : List (List Char) → List Char
  | [] => []
  | [p] => p
  | p :: q :: ps => p ++ '.' :: joinDot (q :: ps)

/-- Model of the Python statement `lst[-1] = x` on a nonempty list (the one
use site applies it to a result of `splitDot`, which is never empty). -/
def setLast (l : List (List Char)) (x : List Char) : List (List Char) :=
  l.dropLast ++ [x]

/-- Model of Python `s.startswith('0')`. -/
def startsWithZero : List Char → Bool
  | [] => false
  | c :: _ => c = '0'

/-! ## `octoeb/utils/formatting.py` -/

/-- Embeds `formatting.extract_major_version`:
`'.'.join(version.split('.')[:4])`. -/
def extract_major_version (version : List Char) : List Char :=
  joinDot ((splitDot version).take 4)

/-- Embeds `formatting.extract_year_week_version`: if the string starts with
the character `'0'` it returns `'.'.join(version.split('.')[2:4])`, else
`'.'.join(version.split('.')[:2])`.  (Python `l[2:4]` is `(l.drop 2).take 2`.) -/
def extract_year_week_version (version : List Char) : List Char :=
  if startsWithZero version then
    joinDot (((splitDot version).drop 2).take 2)
  else
    joinDot ((splitDot version).take 2)

/-- Embeds `formatting.extract_release_branch_version`:
take the first four dot-chunks, overwrite the last of them with `'01'`,
join with dots. -/
def extract_release_branch_version (version : List Char) : List Char :=
  joinDot (setLast ((splitDot version).take 4) (pyStr "01"))

/-! ## Python exceptions

One value type for every Python exception the embedded code can raise.
`GitHubAPIError` and `DuplicateBranchError` (defined in `GitHubAPI.py`)
store nothing but their constructor message, exactly as in the source. -/

inductive PyExc
  /-- `GitHubAPI.GitHubAPIError(msg)`: carries only the formatted message. -/
  | gitHubAPIError (message : List Char)
  /-- `GitHubAPI.DuplicateBranchError(msg)`. -/
  | duplicateBranchError (message : List Char)
  /-- `requests.exceptions.HTTPError` from `Response.raise_for_status()`;
  it carries the response (hence a status code), and it is a subclass of
  `requests.exceptions.RequestException`. -/
  | requestsHTTPError (status_code : Nat)
  /-- Python `AttributeError`. -/
  | attributeError (message : List Char)
  /-- Python `KeyError` (from a `d[k]` subscript on a missing key). -/
  | keyError
  /-- `click.BadParameter`: the user-facing argument error of the CLI. -/
  | clickBadParameter (message : List Char)
  /-- a plain `Exception(msg)`. -/
  | exc (message : List Char)
  deriving DecidableEq

/-- Python attribute lookup `e.response.status_code` on a caught exception.
`requests.HTTPError` instances have a `response` attribute; the exception
classes defined by octoeb (`GitHubAPIError`, `DuplicateBranchError`) never
set one, so the lookup raises `AttributeError` for them (CPython instance /
class attribute lookup). -/
def PyExc.responseStatusCode : PyExc → Except PyExc Nat
  | .requestsHTTPError code => .ok code
  | _ => .error (.attributeError (pyStr "object has no attribute response"))

/-- Model of `isinstance(e, requests.exceptions.RequestException)`:
of the exceptions in this embedding only `requests.HTTPError` is in the
`RequestException` hierarchy. -/
def PyExc.isRequestException : PyExc → Bool
  | .requestsHTTPError _ => true
  | _ => false

/-! ## The version regular expression

`formatting.validate_version` and `cli.validate_version_arg` both test
`re.match(r'^(?:\.?\d+){4,5}$', version)`.  The matcher below decides that
regex over `List Char`: the input (up to an optional trailing newline,
which `$` tolerates) must decompose into exactly 4 or 5 blocks, each an
optional `'.'` followed by one or more ASCII digits (Python 2 `\d` without
`re.UNICODE` is ASCII-only). -/

/-- Consume the leading `\.?` of one regex block: a leading dot must be
taken by `\.?` (leaving it for `\d+` cannot match), any other head means
`\.?` matches the empty string. -/
def stripDot (cs : List Char) : List Char :=
  match cs with
  | [] => []
  | c :: rest => if c = '.' then rest else c :: rest

/-- All ways for `\d+` to consume a nonempty digit prefix: the list of every
suffix `rest` such that `cs = ds ++ rest` with `ds` a nonempty digit string. -/
def digitSuffixes : List Char → List (List Char)
  | [] => []
  | c :: cs => if c.isDigit then cs :: digitSuffixes cs else []

/-- Backtracking matcher for `(?:\.?\d+){n}` anchored on both sides. -/
def matchBlocks : Nat → List Char → Bool
  | 0, cs => cs.isEmpty
  | n + 1, cs => (digitSuffixes (stripDot cs)).any (fun rest => matchBlocks n rest)

/-- Matcher for `^(?:\.?\d+){4,5}$` without the `$`-newline allowance. -/
def matchBlocks45 (cs : List Char) : Bool :=
  matchBlocks 4 cs || matchBlocks 5 cs

/-- Full model of `re.match(r'^(?:\.?\d+){4,5}$', version)` being truthy:
`$` (without `re.M`) also matches just before a newline that ends the
string, so a single trailing `'\n'` is tolerated. -/
def reMatchVersion (cs : List Char) : Bool :=
  matchBlocks45 cs ||
    (cs.getLast? == some '\n' && matchBlocks45 cs.dropLast)

/-- Embeds `formatting.validate_version`: returns `True` on a regex match
and raises `Exception('Invalid version number {}')` otherwise. -/
def validate_version (version : List Char) : Except PyExc Bool :=
  if reMatchVersion version then .ok true
  else .error (.exc (pyStr "Invalid version number " ++ version))

/-- Embeds `cli.validate_version_arg` (the click callback used by the
version options of `start release`, `qa` and `release`): a missing value or
a regex mismatch raises `click.BadParameter`; a match returns the value. -/
def validate_version_arg (version : Option (List Char)) : Except PyExc (List Char) :=
  match version with
  | none => .error (.clickBadParameter (pyStr "Version number is required"))
  | some v =>
    if reMatchVersion v then .ok v
    else .error (.clickBadParameter (pyStr "Invalid version format: " ++ v))

/-- Embeds `cli.validate_version_arg_or_latest_prerelease` (used by
`start releasefix` and `review releasefix`).  When a version is supplied it
is validated against the same regex without touching the network; when it
is `None` the latest prerelease tag is fetched (`latestPre` is the outcome
of that GitHub call).  The returned `Bool` records whether the network
lookup was performed. -/
def validate_version_arg_or_latest_prerelease
    (version : Option (List Char)) (latestPre : Except PyExc (Option (List Char))) :
    Except PyExc (List Char) × Bool :=
  match version with
  | some v =>
    (if reMatchVersion v then .ok v
     else .error (.clickBadParameter (pyStr "Invalid version format: " ++ v)), false)
  | none =>
    match latestPre with
    | .error e => (.error e, true)
    | .ok none => (.error (.clickBadParameter (pyStr "Version number is required")), true)
    | .ok (some v) =>
      (if reMatchVersion v then .ok v
       else .error (.clickBadParameter (pyStr "Invalid version format: " ++ v)), true)

/-! ## `octoeb/utils/GitHubAPI.py`

Each client method is a pure function of the HTTP responses GitHub would
return to the requests the method makes.  A response is its status code, a
parsed JSON body (typed per endpoint), plus the `message` field that
`send_request` reads from error bodies. -/

/-- An HTTP response as the client sees it: `status_code`, the parsed JSON
body (`β` is the per-endpoint body type), and the optional `message` field
of the body, which `send_request` subscripts on error statuses
(`response.json()['message']`, a `KeyError` if absent). -/
structure HttpResp (β : Type) where
  status_code : Nat
  body : β
  errMessage : Option (List Char)
  deriving DecidableEq

/-- Embeds `GitHubAPI.send_request`: a status code above 299 raises
`GitHubAPIError('Status: {}; Message: {}')` built from the status code and
the error body's `message` field; otherwise the response is returned. -/
def send_request {β : Type} (resp : HttpResp β) : Except PyExc (HttpResp β) :=
  if resp.status_code > 299 then
    match resp.errMessage with
    | some m =>
      .error (.gitHubAPIError
        (pyStr "Status: " ++ (toString resp.status_code).data ++ pyStr "; Message: " ++ m))
    | none => .error .keyError
  else
    .ok resp

/-- Embeds `requests.Response.raise_for_status()`: raises
`requests.HTTPError` for 4xx/5xx status codes, otherwise does nothing. -/
def raise_for_status {β : Type} (resp : HttpResp β) : Except PyExc Unit :=
  if 400 ≤ resp.status_code then .error (.requestsHTTPError resp.status_code)
  else .ok ()

/-- Body of a `compare/{base}...{head}` response as the code uses it:
only the `status` field is read, via `.get('status')`. -/
structure CompareBody where
  status : Option (List Char)
  deriving DecidableEq

/-- Embeds `GitHubAPI.compare` at its `check_release_status` call site
(`raise_for_status` left at its default `True`): GET, then
`raise_for_status`, then the parsed body. -/
def compare (resp : HttpResp CompareBody) : Except PyExc CompareBody :=
  match send_request resp with
  | .error e => .error e
  | .ok r =>
    match raise_for_status r with
    | .error e => .error e
    | .ok _ => .ok r.body

/-- Body of a `git/refs/heads/{name}` response as the code uses it:
`create_branch` reads `base['object']['sha']`; `none` models a body where
that path is missing (the subscript would raise `KeyError`). -/
structure RefBody where
  objectSha : Option (List Char)
  deriving DecidableEq

/-- Embeds `GitHubAPI.get_branch` with `raise_for_status=True` (the only
form `create_branch` uses): GET, `raise_for_status`, parsed body. -/
def get_branch (resp : HttpResp RefBody) : Except PyExc RefBody :=
  match send_request resp with
  | .error e => .error e
  | .ok r =>
    match raise_for_status r with
    | .error e => .error e
    | .ok _ => .ok r.body

/-- Body of a release object as the code uses it: `check_release_status`
reads `.get('name', '')` of the latest release, and `prereleases` reads
`.get('prerelease')` and keeps its `tag_name`. -/
structure ReleaseBody where
  name : Option (List Char)
  tag_name : Option (List Char)
  /-- the `prerelease` JSON field; `none` models an absent field, which is
  falsy in `x.get('prerelease')` just as JSON `false` is. -/
  prerelease : Option Bool
  deriving DecidableEq

/-- Embeds `GitHubAPI.latest_release`: GET `releases/latest` and return the
parsed body (no `raise_for_status` call in the source). -/
def latest_release (resp : HttpResp ReleaseBody) : Except PyExc ReleaseBody :=
  match send_request resp with
  | .error e => .error e
  | .ok r => .ok r.body

/-- The `releases` local of `GitHubAPI.prereleases`: the parsed listing, or
the empty list when the body could not be parsed as JSON
(`except Exception: releases = []`). -/
def parsed_releases (body : Option (List ReleaseBody)) : List ReleaseBody :=
  match body with
  | none => []
  | some l => l

/-- Embeds `GitHubAPI.prereleases`: GET `releases`; if the body cannot be
parsed as JSON (`body = none`) the listing is treated as empty; keep the
entries whose `prerelease` field is truthy, in listing order. -/
def prereleases (resp : HttpResp (Option (List ReleaseBody))) :
    Except PyExc (List ReleaseBody) :=
  match send_request resp with
  | .error e => .error e
  | .ok r =>
    .ok ((parsed_releases r.body).filter (fun x => x.prerelease = some true))

/-- Embeds `GitHubAPI.latest_prerelease`: `None` when `prereleases()` is
empty, otherwise its first element. -/
def latest_prerelease (resp : HttpResp (Option (List ReleaseBody))) :
    Except PyExc (Option ReleaseBody) :=
  match prereleases resp with
  | .error e => .error e
  | .ok [] => .ok none
  | .ok (x :: _) => .ok (some x)

/-- The ref-creation POST that `create_branch` can issue
(`POST git/refs` with `{'ref': 'refs/heads/{name}', 'sha': sha}`). -/
structure PostedRef where
  ref : List Char
  sha : List Char
  deriving DecidableEq

/-- The message of the `DuplicateBranchError` that `create_branch` raises
(the source's typo `get checkout` included). -/
def duplicateBranchMsg (name : List Char) : List Char :=
  pyStr "Branch already started. Run\n\tgit fetch --all && get checkout " ++ name

/-- Embeds `GitHubAPI.create_branch`.  Inputs are the responses GitHub
would give to the three requests the method can make: the existence GET for
`name`, the GET for `base_name` (consulted only when `from_sha` is false),
and the ref-creation POST.  Returns the method's outcome paired with the
list of mutating (POST) calls actually issued.

Control flow mirrors the source: the existence check catches only
`GitHubAPIError` (other errors propagate) and raises `DuplicateBranchError`
when the GET succeeds; the base subscript `base['object']['sha']` raises
`KeyError` outside any handler (the `try/except KeyError` in the source
only wraps the dict literal, which cannot raise); the POST is followed by
`raise_for_status` whose error is re-raised. -/
def create_branch (nameResp baseResp postResp : HttpResp RefBody)
    (name base_name : List Char) (from_sha : Bool) :
    Except PyExc RefBody × List PostedRef :=
  match get_branch nameResp with
  | .ok _ => (.error (.duplicateBranchError (duplicateBranchMsg name)), [])
  | .error (.gitHubAPIError _) =>
    -- `except GitHubAPIError: pass` — continue to create the ref
    let base_sha : Except PyExc (List Char) :=
      if from_sha then .ok base_name
      else
        match get_branch baseResp with
        | .error e => .error e
        | .ok body =>
          match body.objectSha with
          | none => .error .keyError
          | some sha => .ok sha
    match base_sha with
    | .error e => (.error e, [])
    | .ok sha =>
      let posted : PostedRef := ⟨pyStr "refs/heads/" ++ name, sha⟩
      match send_request postResp with
      | .error e => (.error e, [posted])
      | .ok r =>
        match raise_for_status r with
        | .error e => (.error e, [posted])
        | .ok _ => (.ok r.body, [posted])
  | .error e => (.error e, [])

/-- Embeds `GitHubAPI.check_release_status`.

Inputs: the response to the `compare/master...{release_branch}` GET, the
response to the `releases/latest` GET (only requested on the fallback
path), the requested `release_name`, and the configured release-branch
base name (`build_release_base_name(get_config())` — that helper is not
under `src/`, so its result is taken as an opaque argument; no claim
depends on its value).

Control flow mirrors the source: on a successful compare the `status`
field must not be `diverged`/`ahead`; when compare raises `GitHubAPIError`
the handler evaluates `e.response.status_code`, and only if that yields a
value other than 404 re-raises `e`; otherwise it falls through to the
year-week comparison against the latest release. -/
def check_release_status (compareResp : HttpResp CompareBody)
    (latestResp : HttpResp ReleaseBody)
    (release_name release_branch_base : List Char) : Except PyExc Unit :=
  let release_version := extract_release_branch_version release_name
  match compare compareResp with
  | .ok body =>
    let merge_status := body.status
    if merge_status = some (pyStr "diverged") ∨ merge_status = some (pyStr "ahead") then
      .error (.exc (pyStr "Release must be merged into master before release"))
    else
      .ok ()
  | .error e =>
    match e with
    | .gitHubAPIError m =>
      -- `except GitHubAPIError as e: if not e.response.status_code == 404: raise e`
      match PyExc.responseStatusCode (.gitHubAPIError m) with
      | .error ae => .error ae
      | .ok sc =>
        if sc ≠ 404 then .error (.gitHubAPIError m)
        else
          -- the hotfix fallback: compare year-week versions
          match latest_release latestResp with
          | .error e2 => .error e2
          | .ok body =>
            let raw0 := (body.name).getD []
            let raw_version :=
              if release_branch_base.isPrefixOf raw0 then
                raw0.drop release_branch_base.length
              else raw0
            let version := extract_year_week_version raw_version
            if extract_year_week_version release_version ≠ version then
              .error (.exc (pyStr "New release version does not match the current release, we expected a hotfix."))
            else
              .ok ()
    | _ => .error e

/-! ## `octoeb/utils/git.py` — the `on_branch` context manager

`on_branch` is a `@contextmanager` generator.  Entering it runs the
commands before the `yield`; the caller's block then runs; on normal
completion the generator resumes and runs the commands after the `yield`.
When the block raises, `contextmanager.__exit__` throws the exception into
the generator at the `yield`; the generator has no `try`/`finally` around
the `yield`, so the exception propagates out of it at once and the code
after the `yield` (checkout of the original branch, `stash pop`) does not
run.  The embedding records the git subprocess commands actually issued. -/

/-- One git subprocess invocation made by `on_branch`. -/
inductive GitCmd
  /-- `git rev-parse --abbrev-ref HEAD` -/
  | revParseHead
  /-- `git stash create -q` -/
  | stashCreate
  /-- `git stash store -q <ref>` -/
  | stashStore (ref : List Char)
  /-- `git reset --hard` -/
  | resetHard
  /-- `git checkout -q <branch>` -/
  | checkout (branch : List Char)
  /-- `git pull -q <remote> <branch>` -/
  | pull (remote branch : List Char)
  /-- `git stash pop -q` -/
  | stashPop
  deriving DecidableEq

/-- The commands `on_branch` runs before its `yield`, given the values the
ambient repository state produces: `stashRef` is the output of
`stash create` (empty when there was nothing to stash). -/
def on_branch_enter (name remote stashRef : List Char) : List GitCmd :=
  [.revParseHead, .stashCreate] ++
    (if stashRef ≠ [] then [.stashStore stashRef, .resetHard] else []) ++
    [.checkout name, .pull remote name]

/-- Embeds `with git.on_branch(name, remote): body`.  Returns the outcome
of the whole `with` statement and the trace of git commands issued.  On a
normal body the post-`yield` commands run; on a raising body the generator
(no `try`/`finally` around its `yield`) lets the exception out before the
restoration commands. -/
def run_on_branch (name remote orgBranch stashRef : List Char)
    (body : Except PyExc Unit) : Except PyExc Unit × List GitCmd :=
  let enter := on_branch_enter name remote stashRef
  match body with
  | .ok () =>
    (.ok (),
      enter ++ [.checkout orgBranch] ++ (if stashRef ≠ [] then [.stashPop] else []))
  | .error e => (.error e, enter)

/-! ## `octoeb/cli.py` — changelog-ticket linking

`JiraAPI.link_issues` itself is not under `src/` (the `JiraAPI` class in
`src/octoeb/utils/JiraAPI.py` does not define it; `cli.py` is its only
trace). -/

/-- A response of the Jira server to one link request. -/
structure JiraResp where
  status_code : Nat
  body : List Char
  deriving DecidableEq

/-- Modelled from the spec: `JiraAPI.link_issues(fromId, toId)` is missing
from `src/`; per spec §4.3/§6 it posts an issue-link request to the issue
tracker in the style of `JiraAPI.post` (`requests.post` followed by
`raise_for_status`), so an HTTP failure surfaces as
`requests.HTTPError`, a `RequestException`. -/
def link_issues (resp : JiraResp) : Except PyExc (List Char) :=
  if 400 ≤ resp.status_code then .error (.requestsHTTPError resp.status_code)
  else .ok resp.body

/-- Embeds the linking loops of `cli.qa` (`for change_id in bar: try:
jira.link_issues(...) except RequestException: log`) and of
`cli.start_release` (same shape at lines 379-394): every changelog ticket
id is tried in order; a `RequestException` is logged and the loop
continues; any other exception propagates.  `linkResp` gives the server's
response per ticket id; the result records, per ticket, whether its link
call succeeded. -/
def link_changelog_tickets (changeIds : List (List Char))
    (linkResp : List Char → JiraResp) : Except PyExc (List (List Char × Bool)) :=
  match changeIds with
  | [] => .ok []
  | id :: rest =>
    match link_issues (linkResp id) with
    | .ok _ =>
      match link_changelog_tickets rest linkResp with
      | .ok logs => .ok ((id, true) :: logs)
      | .error e => .error e
    | .error e =>
      if e.isRequestException then
        match link_changelog_tickets rest linkResp with
        | .ok logs => .ok ((id, false) :: logs)
        | .error e2 => .error e2
      else .error e

/-- Embeds the tail of `cli.qa`: the linking loop runs inside the
`on_branch` block; only if that block completes does control reach the
`api.create_pre_release(...)` call.  The returned flag records whether
`create_pre_release` was attempted. -/
def qa_flow (changeIds : List (List Char)) (linkResp : List Char → JiraResp)
    (preRelease : Except PyExc Unit) : Except PyExc Unit × Bool :=
  match link_changelog_tickets changeIds linkResp with
  | .error e => (.error e, false)
  | .ok _ => (preRelease, true)

/-! ## Claim-side (specification) definitions

These definitions follow the words of the claims, to be compared with the
code-level definitions above. -/

/-- Claim C6's acceptance language, as the claim words it: the string is
made of 4 or 5 dot-separated groups, each a nonempty run of digits. -/
def DotSeparated45 (v : List Char) : Prop :=
  ((splitDot v).length = 4 ∨ (splitDot v).length = 5) ∧
    ∀ p ∈ splitDot v, p ≠ [] ∧ ∀ c ∈ p, c.isDigit = true

instance : DecidablePred DotSeparated45 := fun _ => by
  unfold DotSeparated45; infer_instance

/-- One block of the regex `(?:\.?\d+){4,5}`: an optional dot followed by a
nonempty run of digits. -/
def IsVersionBlock (b : List Char) : Prop :=
  ∃ ds : List Char, ds ≠ [] ∧ (∀ c ∈ ds, c.isDigit = true) ∧ (b = ds ∨ b = '.' :: ds)

/-- A string decomposes into exactly `n` regex blocks. -/
def DecomposesIntoBlocks (v : List Char) (n : Nat) : Prop :=
  ∃ bs : List (List Char), bs.length = n ∧ (∀ b ∈ bs, IsVersionBlock b) ∧ v = bs.flatten

/-- The amended acceptance condition for claim C6: the string decomposes
into 4 or 5 blocks, each an optional dot followed by one or more digits. -/
def AmendedVersionOk (v : List Char) : Prop :=
  DecomposesIntoBlocks v 4 ∨ DecomposesIntoBlocks v 5

/-- Claim C7's function, as the claim words it: the 3rd and 4th
dot-components joined by a dot when the *first dot-component* of `v` is
`"0"`, else the 1st and 2nd dot-components joined by a dot. -/
def claimYearWeek (v : List Char) : List Char :=
  if (splitDot v).head? = some (pyStr "0") then
    joinDot (((splitDot v).drop 2).take 2)
  else
    joinDot ((splitDot v).take 2)

/-- The amended condition for claim C7: the same component selection, but
keyed on the string *starting with the character* `'0'`, which is what
`version.startswith('0')` tests. -/
def amendedYearWeek (v : List Char) : List Char :=
  if v.head? = some '0' then
    joinDot (((splitDot v).drop 2).take 2)
  else
    joinDot ((splitDot v).take 2)

/-! ## Helper lemmas on the string model -/

theorem splitDotAux_no_dot (cs : List Char) :
    '.' ∉ (splitDotAux cs).1 ∧ ∀ p ∈ (splitDotAux cs).2, '.' ∉ p := by
  induction cs with
  | nil => simp [splitDotAux]
  | cons c cs ih =>
    by_cases hc : c = '.'
    · simpa [splitDotAux, hc] using ⟨ih.1, ih.2⟩
    · refine ⟨?_, by simpa [splitDotAux, hc] using ih.2⟩
      simp only [splitDotAux, if_neg hc, List.mem_cons]
      rintro (h | h)
      · exact hc h.symm
      · exact ih.1 h

theorem no_dot_of_mem_splitDot {p : List Char} {cs : List Char}
    (h : p ∈ splitDot cs) : '.' ∉ p := by
  simp only [splitDot, List.mem_cons] at h
  rcases h with rfl | h
  · exact (splitDotAux_no_dot cs).1
  · exact (splitDotAux_no_dot cs).2 p h

theorem splitDotAux_append_no_dot (p rest : List Char) (hp : '.' ∉ p) :
    splitDotAux (p ++ rest) =
      (p ++ (splitDotAux rest).1, (splitDotAux rest).2) := by
  induction p with
  | nil => simp
  | cons c p ih =>
    have hc : c ≠ '.' := fun h => hp (h ▸ List.mem_cons_self c p)
    have hp' : '.' ∉ p := fun h => hp (List.mem_cons_of_mem c h)
    simp [splitDotAux, Ne.symm hc, ih hp', hc]

theorem splitDot_joinDot (l : List (List Char)) (hne : l ≠ [])
    (hl : ∀ p ∈ l, '.' ∉ p) : splitDot (joinDot l) = l := by
  induction l with
  | nil => exact absurd rfl hne
  | cons p l ih =>
    cases l with
    | nil =>
      have hp : '.' ∉ p := hl p (List.mem_cons_self p [])
      have := splitDotAux_append_no_dot p [] hp
      simp only [List.append_nil] at this
      simp [joinDot, splitDot, this, splitDotAux]
    | cons q l =>
      have hp : '.' ∉ p := hl p (List.mem_cons_self p _)
      have hrest : ∀ r ∈ q :: l, '.' ∉ r := fun r hr => hl r (List.mem_cons_of_mem p hr)
      have ihr := ih (by simp) hrest
      have hsplit := splitDotAux_append_no_dot p ('.' :: joinDot (q :: l)) hp
      have haux : splitDotAux ('.' :: joinDot (q :: l)) =
          ([], (splitDotAux (joinDot (q :: l))).1 :: (splitDotAux (joinDot (q :: l))).2) := by
        simp [splitDotAux]
      simp only [joinDot, splitDot] at ihr ⊢
      rw [hsplit, haux]
      simp only [List.append_nil]
      exact congrArg (p :: ·) ihr

theorem splitDot_extract_release_branch_version (v : List Char) :
    splitDot (extract_release_branch_version v) =
      setLast ((splitDot v).take 4) (pyStr "01") := by
  apply splitDot_joinDot
  · simp [setLast]
  · intro p hp
    have hp' : p ∈ (List.take 4 (splitDot v)).dropLast ∨ p = pyStr "01" := by
      simpa [setLast] using hp
    rcases hp' with h | rfl
    · exact no_dot_of_mem_splitDot
        ((List.take_sublist 4 (splitDot v)).mem ((List.dropLast_sublist _).mem h))
    · decide

theorem exists_cons4_of_le_length {α : Type} {l : List α} (h : 4 ≤ l.length) :
    ∃ a b c d t, l = a :: b :: c :: d :: t := by
  rcases l with _ | ⟨a, _ | ⟨b, _ | ⟨c, _ | ⟨d, t⟩⟩⟩⟩
  · simp at h
  · simp at h
  · simp at h
  · simp at h
  · exact ⟨a, b, c, d, t, rfl⟩

/-! ## Claim theorems -/

/-- C9: `extract_release_branch_version` is idempotent — applying it to its
own output returns that output unchanged, for every input string. -/
theorem claim_C9_release_branch_version_idempotent (v : List Char) :
    extract_release_branch_version (extract_release_branch_version v) =
      extract_release_branch_version v := by
  have hsplit := splitDot_extract_release_branch_version v
  conv_lhs => rw [extract_release_branch_version]
  rw [hsplit]
  have hlen : (setLast ((splitDot v).take 4) (pyStr "01")).length ≤ 4 := by
    have h1 : ((splitDot v).take 4).length ≤ 4 := by
      simp [List.length_take]
    simp only [setLast, List.length_append, List.length_dropLast, List.length_singleton]
    omega
  rw [List.take_of_length_le hlen]
  show joinDot (setLast (((splitDot v).take 4).dropLast ++ [pyStr "01"]) (pyStr "01")) = _
  rw [setLast, List.dropLast_concat]
  rfl

/-- C8: for every valid version string (4 or 5 dot-separated numeric
components), `extract_release_branch_version` returns the first four
dot-components with the fourth replaced by the fixed placeholder `'01'`,
and the result ends in the placeholder component `".01"` regardless of the
input's last digit. -/
theorem claim_C8_release_branch_version (v : List Char) (hv : DotSeparated45 v) :
    (∃ p1 p2 p3 p4 rest, splitDot v = p1 :: p2 :: p3 :: p4 :: rest ∧
        extract_release_branch_version v = joinDot [p1, p2, p3, pyStr "01"]) ∧
    pyStr ".01" <:+ extract_release_branch_version v := by
  have h4 : 4 ≤ (splitDot v).length := by
    rcases hv.1 with h | h <;> omega
  obtain ⟨p1, p2, p3, p4, rest, hs⟩ := exists_cons4_of_le_length h4
  have hlen45 : rest = [] ∨ ∃ p5, rest = [p5] := by
    rcases hv.1 with h | h
    · rw [hs] at h
      simp at h
      exact Or.inl h
    · rw [hs] at h
      simp at h
      obtain ⟨p5, hr⟩ := List.length_eq_one.1 h
      exact Or.inr ⟨p5, hr⟩
  have hval : extract_release_branch_version v = joinDot [p1, p2, p3, pyStr "01"] := by
    unfold extract_release_branch_version
    rw [hs]
    rcases hlen45 with rfl | ⟨p5, rfl⟩ <;> simp [setLast, joinDot]
  refine ⟨⟨p1, p2, p3, p4, rest, hs, hval⟩, ?_⟩
  rw [hval]
  exact ⟨p1 ++ '.' :: (p2 ++ '.' :: p3), by simp [joinDot, pyStr]⟩

/-- C8 witness: the theorem applied at `"1.2.3.9"`. -/
theorem claim_C8_release_branch_version_witness :
    DotSeparated45 (pyStr "1.2.3.9") ∧
    ((∃ p1 p2 p3 p4 rest, splitDot (pyStr "1.2.3.9") = p1 :: p2 :: p3 :: p4 :: rest ∧
        extract_release_branch_version (pyStr "1.2.3.9") = joinDot [p1, p2, p3, pyStr "01"]) ∧
      pyStr ".01" <:+ extract_release_branch_version (pyStr "1.2.3.9")) :=
  ⟨by decide, claim_C8_release_branch_version (pyStr "1.2.3.9") (by decide)⟩

/-- C7 counterexample: at `"01.2.3.4"` the first dot-component is `"01"`,
not `"0"`, so the claim predicts components 1-2 (`"01.2"`); the code tests
`startswith('0')`, which is true, and returns components 3-4 (`"3.4"`). -/
theorem claim_C7_year_week_counterexample :
    extract_year_week_version (pyStr "01.2.3.4") = pyStr "3.4" ∧
    claimYearWeek (pyStr "01.2.3.4") = pyStr "01.2" ∧
    extract_year_week_version (pyStr "01.2.3.4") ≠ claimYearWeek (pyStr "01.2.3.4") :=
  ⟨by decide, by decide, by decide⟩

/-- C7 amended: `extract_year_week_version v` returns the 3rd and 4th
dot-components joined by a dot when `v` starts with the character `'0'`
(not: when the first dot-component equals `"0"`), and the 1st and 2nd
dot-components joined by a dot otherwise; in particular `"0.0.15.3"`
yields `"15.3"` and `"2.15.3.1"` yields `"2.15"`. -/
theorem claim_C7_year_week_version :
    (∀ v : List Char, extract_year_week_version v = amendedYearWeek v) ∧
    extract_year_week_version (pyStr "0.0.15.3") = pyStr "15.3" ∧
    extract_year_week_version (pyStr "2.15.3.1") = pyStr "2.15" := by
  refine ⟨fun v => ?_, by decide, by decide⟩
  unfold extract_year_week_version amendedYearWeek
  cases v with
  | nil => simp [startsWithZero]
  | cons c cs =>
    by_cases hc : c = '0' <;> simp [startsWithZero, hc]

theorem mem_digitSuffixes {rest cs : List Char} :
    rest ∈ digitSuffixes cs ↔
      ∃ ds, ds ≠ [] ∧ (∀ c ∈ ds, c.isDigit = true) ∧ cs = ds ++ rest := by
  induction cs generalizing rest with
  | nil =>
    simp only [digitSuffixes, List.not_mem_nil, false_iff]
    rintro ⟨ds, hne, -, h⟩
    cases ds with
    | nil => exact hne rfl
    | cons d ds => simp at h
  | cons c cs ih =>
    by_cases hd : c.isDigit
    · simp only [digitSuffixes, if_pos hd, List.mem_cons]
      constructor
      · rintro (rfl | h)
        · exact ⟨[c], by simp, by simpa using hd, rfl⟩
        · obtain ⟨ds, hne, hdig, rfl⟩ := ih.1 h
          exact ⟨c :: ds, by simp, by
            intro x hx
            rcases List.mem_cons.1 hx with rfl | hx
            · exact hd
            · exact hdig x hx, rfl⟩
      · rintro ⟨ds, hne, hdig, h⟩
        cases ds with
        | nil => exact absurd rfl hne
        | cons d ds =>
          rw [List.cons_append] at h
          injection h with h1 h2
          subst h1
          cases ds with
          | nil =>
            rw [List.nil_append] at h2
            exact Or.inl h2.symm
          | cons d2 ds =>
            refine Or.inr (ih.2 ⟨d2 :: ds, by simp, ?_, by simpa using h2⟩)
            intro x hx
            exact hdig x (List.mem_cons_of_mem _ hx)
    · simp only [digitSuffixes, if_neg hd, List.not_mem_nil, false_iff]
      rintro ⟨ds, hne, hdig, h⟩
      cases ds with
      | nil => exact absurd rfl hne
      | cons d ds =>
        rw [List.cons_append] at h
        injection h with h1 h2
        subst h1
        exact hd (hdig c (List.mem_cons_self c ds))

theorem matchBlocks_iff (n : Nat) (cs : List Char) :
    matchBlocks n cs = true ↔ DecomposesIntoBlocks cs n := by
  induction n generalizing cs with
  | zero =>
    simp only [matchBlocks, List.isEmpty_iff, DecomposesIntoBlocks]
    constructor
    · rintro rfl
      exact ⟨[], rfl, by simp, rfl⟩
    · rintro ⟨bs, hlen, -, rfl⟩
      rw [List.length_eq_zero.1 hlen]
      rfl
  | succ n ih =>
    simp only [matchBlocks, List.any_eq_true]
    constructor
    · rintro ⟨rest, hmem, hrest⟩
      obtain ⟨ds, hne, hdig, hsplit⟩ := mem_digitSuffixes.1 hmem
      obtain ⟨bs, hlen, hblocks, rfl⟩ := (ih rest).1 hrest
      cases cs with
      | nil =>
        -- stripDot [] = [], but ds ++ rest is nonempty
        exfalso
        cases ds with
        | nil => exact hne rfl
        | cons d ds => simp [stripDot] at hsplit
      | cons c cs0 =>
        by_cases hc : c = '.'
        · subst hc
          refine ⟨('.' :: ds) :: bs, by simpa using hlen, ?_, ?_⟩
          · intro b hb
            rcases List.mem_cons.1 hb with hbe | hb
            · rw [hbe]
              exact ⟨ds, hne, hdig, Or.inr rfl⟩
            · exact hblocks b hb
          · simp [stripDot] at hsplit
            simp [hsplit]
        · refine ⟨ds :: bs, by simpa using hlen, ?_, ?_⟩
          · intro b hb
            rcases List.mem_cons.1 hb with hbe | hb
            · rw [hbe]
              exact ⟨ds, hne, hdig, Or.inl rfl⟩
            · exact hblocks b hb
          · simp only [stripDot, if_neg hc] at hsplit
            simp [hsplit]
    · rintro ⟨bs, hlen, hblocks, rfl⟩
      cases bs with
      | nil => simp at hlen
      | cons b bs =>
        obtain ⟨ds, hne, hdig, hcase⟩ := hblocks b (List.mem_cons_self b bs)
        have hrest : matchBlocks n bs.flatten = true :=
          (ih bs.flatten).2
            ⟨bs, by simpa using hlen, fun x hx => hblocks x (List.mem_cons_of_mem b hx), rfl⟩
        refine ⟨bs.flatten, ?_, hrest⟩
        rcases hcase with rfl | rfl
        · -- block without a dot: its head is a digit, so not '.'
          cases hb : b with
          | nil => exact absurd hb hne
          | cons d ds0 =>
            subst hb
            have hd : d.isDigit = true := hdig d (List.mem_cons_self d ds0)
            have hdot : d ≠ '.' := by
              intro hh
              rw [hh] at hd
              exact absurd hd (by decide)
            have hstrip : stripDot ((d :: ds0) :: bs).flatten = (d :: ds0) ++ bs.flatten := by
              simp [stripDot, hdot]
            rw [hstrip]
            exact mem_digitSuffixes.2 ⟨d :: ds0, hne, hdig, rfl⟩
        · -- block with a leading dot
          have hstrip : stripDot (('.' :: ds) :: bs).flatten = ds ++ bs.flatten := by
            rw [List.flatten_cons, List.cons_append]
            simp [stripDot]
          rw [hstrip]
          exact mem_digitSuffixes.2 ⟨ds, hne, hdig, rfl⟩

theorem reMatchVersion_iff_amended {v : List Char} (h : '\n' ∉ v) :
    reMatchVersion v = true ↔ AmendedVersionOk v := by
  have hlast : (v.getLast? == some '\n') = false := by
    cases hv : v.getLast? with
    | none => rfl
    | some c =>
      obtain ⟨hne, rfl⟩ := List.mem_getLast?_eq_getLast (by simp [hv] : c ∈ v.getLast?)
      have hmem : v.getLast hne ∈ v := List.getLast_mem hne
      simp only [beq_eq_false_iff_ne, ne_eq, Option.some.injEq]
      intro hc
      exact h (hc ▸ hmem)
  unfold reMatchVersion matchBlocks45
  rw [hlast]
  simp only [Bool.and_false, Bool.false_and, Bool.or_false, Bool.or_eq_true]
  rw [matchBlocks_iff, matchBlocks_iff]
  rfl

/-- C6 counterexample: `"1234"` is not 4 or 5 dot-separated numeric groups
(it is a single group), yet both `validate_version` and the click callback
`validate_version_arg` accept it — the regex `(?:\.?\d+){4,5}` makes every
dot optional, so it matches `"1"+"2"+"3"+"4"`. -/
theorem claim_C6_version_validation_counterexample :
    ¬ DotSeparated45 (pyStr "1234") ∧
    validate_version (pyStr "1234") = .ok true ∧
    validate_version_arg (some (pyStr "1234")) = .ok (pyStr "1234") :=
  ⟨by decide, rfl, rfl⟩

/-- C6 amended: for every command accepting a version argument, a version
string (no newline) is rejected with a user-facing argument error exactly
when it does not decompose into 4 or 5 groups each consisting of an
optional dot followed by one or more digits (the language of
`(?:\.?\d+){4,5}`); all 4-or-5 dot-separated numeric-group strings are
accepted, but so are some non-dot-separated strings such as `"1234"`.
No network lookup happens for a supplied (rejected or accepted) value. -/
theorem claim_C6_version_validation (v : List Char) (h : '\n' ∉ v) :
    (validate_version v = .ok true ↔ AmendedVersionOk v) ∧
    (validate_version_arg (some v) = .ok v ↔ AmendedVersionOk v) ∧
    (¬ AmendedVersionOk v →
      validate_version v = .error (.exc (pyStr "Invalid version number " ++ v)) ∧
      validate_version_arg (some v) =
        .error (.clickBadParameter (pyStr "Invalid version format: " ++ v))) ∧
    (∀ lp, (validate_version_arg_or_latest_prerelease (some v) lp).2 = false ∧
      ((validate_version_arg_or_latest_prerelease (some v) lp).1 = .ok v ↔
        AmendedVersionOk v)) := by
  have hiff := reMatchVersion_iff_amended h
  by_cases hm : reMatchVersion v = true
  · have hA : AmendedVersionOk v := hiff.1 hm
    refine ⟨?_, ?_, ?_, ?_⟩ <;>
      simp [validate_version, validate_version_arg,
        validate_version_arg_or_latest_prerelease, hm, hA]
  · have hA : ¬ AmendedVersionOk v := fun ha => hm (hiff.2 ha)
    have hm' : reMatchVersion v = false := by
      cases hr : reMatchVersion v
      · rfl
      · exact absurd hr hm
    refine ⟨?_, ?_, ?_, ?_⟩ <;>
      simp [validate_version, validate_version_arg,
        validate_version_arg_or_latest_prerelease, hm', hA]

/-- C6 witness: the amended theorem applied at `"1.2.3.4"`. -/
theorem claim_C6_version_validation_witness :
    ('\n' ∉ pyStr "1.2.3.4") ∧
    (validate_version (pyStr "1.2.3.4") = .ok true ↔ AmendedVersionOk (pyStr "1.2.3.4")) :=
  ⟨by decide, (claim_C6_version_validation (pyStr "1.2.3.4") (by decide)).1⟩

/-- C1: whenever the compare of trunk (`master`) against the release branch
performed by `check_release_status` succeeds (HTTP success), the method
raises the merge-guard error when the compare status is `diverged` or
`ahead`, and returns normally when it is `behind` or `identical`. -/
theorem claim_C1_release_status_guard (cResp : HttpResp CompareBody)
    (lResp : HttpResp ReleaseBody) (release_name base : List Char)
    (hok : cResp.status_code ≤ 299) :
    ((cResp.body.status = some (pyStr "diverged") ∨
        cResp.body.status = some (pyStr "ahead")) →
      check_release_status cResp lResp release_name base =
        .error (.exc (pyStr "Release must be merged into master before release"))) ∧
    ((cResp.body.status = some (pyStr "behind") ∨
        cResp.body.status = some (pyStr "identical")) →
      check_release_status cResp lResp release_name base = .ok ()) := by
  have h1 : ¬ cResp.status_code > 299 := by omega
  have h2 : ¬ 400 ≤ cResp.status_code := by omega
  have hcomp : compare cResp = .ok cResp.body := by
    unfold compare send_request
    rw [if_neg h1]
    show (match raise_for_status cResp with
      | Except.error e => (Except.error e : Except PyExc CompareBody)
      | Except.ok _ => Except.ok cResp.body) = Except.ok cResp.body
    unfold raise_for_status
    rw [if_neg h2]
  have hmain : check_release_status cResp lResp release_name base =
      (if cResp.body.status = some (pyStr "diverged") ∨
          cResp.body.status = some (pyStr "ahead") then
        .error (.exc (pyStr "Release must be merged into master before release"))
      else .ok ()) := by
    unfold check_release_status
    rw [hcomp]
  constructor
  · intro hs
    rw [hmain, if_pos hs]
  · intro hs
    rw [hmain]
    rcases hs with hs | hs <;> rw [hs] <;> rw [if_neg (by decide)]

/-- C1 witness: the theorem applied at a 200 compare response with status
`"diverged"` and at one with status `"identical"`. -/
theorem claim_C1_release_status_guard_witness :
    check_release_status ⟨200, ⟨some (pyStr "diverged")⟩, none⟩
        ⟨200, ⟨none, none, none⟩, none⟩ (pyStr "2.15.3.1") (pyStr "release-") =
      .error (.exc (pyStr "Release must be merged into master before release")) ∧
    check_release_status ⟨200, ⟨some (pyStr "identical")⟩, none⟩
        ⟨200, ⟨none, none, none⟩, none⟩ (pyStr "2.15.3.1") (pyStr "release-") = .ok () :=
  ⟨(claim_C1_release_status_guard ⟨200, ⟨some (pyStr "diverged")⟩, none⟩
      ⟨200, ⟨none, none, none⟩, none⟩ (pyStr "2.15.3.1") (pyStr "release-")
      (by decide)).1 (Or.inl rfl),
   (claim_C1_release_status_guard ⟨200, ⟨some (pyStr "identical")⟩, none⟩
      ⟨200, ⟨none, none, none⟩, none⟩ (pyStr "2.15.3.1") (pyStr "release-")
      (by decide)).2 (Or.inr rfl)⟩

/-- C2 (behaviour of the code at the failing inputs): when the compare of
trunk with the release branch fails with HTTP 404 (release branch absent),
`check_release_status` does NOT take the year-week fallback — the handler
evaluates `e.response.status_code` on a `GitHubAPIError`, which has no
`response` attribute, so an `AttributeError` escapes (first conjunct; the
latest-release response offered here has a matching year-week, so the
claimed fallback would have accepted).  For any other HTTP error class
(here 500) the original `GitHubAPIError` is likewise NOT re-raised
unchanged: the same `AttributeError` escapes (second conjunct). -/
theorem claim_C2_fallback_dead_code :
    check_release_status ⟨404, ⟨none⟩, some (pyStr "Not Found")⟩
        ⟨200, ⟨some (pyStr "release-2.15.3.01"), some (pyStr "2.15.3.01"), some false⟩, none⟩
        (pyStr "2.15.3.1") (pyStr "release-") =
      .error (.attributeError (pyStr "object has no attribute response")) ∧
    check_release_status ⟨500, ⟨none⟩, some (pyStr "Server Error")⟩
        ⟨200, ⟨some (pyStr "release-2.15.3.01"), some (pyStr "2.15.3.01"), some false⟩, none⟩
        (pyStr "2.15.3.1") (pyStr "release-") =
      .error (.attributeError (pyStr "object has no attribute response")) :=
  ⟨rfl, rfl⟩

/-- C3 (behaviour of the code at the failing input): starting from branch
`develop` with uncommitted work (a stash was created), running
`with on_branch('release-2.15.3.01')` around a body that raises: the
exception propagates, and the trace of issued git commands contains
neither the checkout back to `develop` nor the `stash pop` — the generator
has no `try`/`finally` around its `yield`, so the restoration commands
after the `yield` never run on the exceptional exit path. -/
theorem claim_C3_on_branch_no_restore_on_exception :
    (run_on_branch (pyStr "release-2.15.3.01") (pyStr "mainline") (pyStr "develop")
        (pyStr "abc123") (.error (.exc (pyStr "boom")))).1 =
      .error (.exc (pyStr "boom")) ∧
    GitCmd.checkout (pyStr "develop") ∉
      (run_on_branch (pyStr "release-2.15.3.01") (pyStr "mainline") (pyStr "develop")
        (pyStr "abc123") (.error (.exc (pyStr "boom")))).2 ∧
    GitCmd.stashPop ∉
      (run_on_branch (pyStr "release-2.15.3.01") (pyStr "mainline") (pyStr "develop")
        (pyStr "abc123") (.error (.exc (pyStr "boom")))).2 :=
  ⟨rfl, by decide, by decide⟩

/-- C4: for every branch name that already exists on the remote (the
existence GET succeeds), `create_branch` raises the distinguished
`DuplicateBranchError` — not a generic error — and issues no mutating
(POST) call. -/
theorem claim_C4_create_branch_duplicate (nameResp baseResp postResp : HttpResp RefBody)
    (name base_name : List Char) (from_sha : Bool)
    (hexists : nameResp.status_code ≤ 299) :
    create_branch nameResp baseResp postResp name base_name from_sha =
      (.error (.duplicateBranchError (duplicateBranchMsg name)), []) := by
  have h1 : ¬ nameResp.status_code > 299 := by omega
  have h2 : ¬ 400 ≤ nameResp.status_code := by omega
  have hget : get_branch nameResp = .ok nameResp.body := by
    unfold get_branch send_request
    rw [if_neg h1]
    show (match raise_for_status nameResp with
      | Except.error e => (Except.error e : Except PyExc RefBody)
      | Except.ok _ => Except.ok nameResp.body) = Except.ok nameResp.body
    unfold raise_for_status
    rw [if_neg h2]
  unfold create_branch
  rw [hget]

/-- C4 witness: the theorem applied at a concrete existing branch. -/
theorem claim_C4_create_branch_duplicate_witness :
    create_branch ⟨200, ⟨some (pyStr "abc")⟩, none⟩ ⟨200, ⟨some (pyStr "def")⟩, none⟩
        ⟨201, ⟨some (pyStr "abc")⟩, none⟩ (pyStr "release-2.15.3.01") (pyStr "develop") false =
      (.error (.duplicateBranchError (duplicateBranchMsg (pyStr "release-2.15.3.01"))), []) :=
  claim_C4_create_branch_duplicate ⟨200, ⟨some (pyStr "abc")⟩, none⟩
    ⟨200, ⟨some (pyStr "def")⟩, none⟩ ⟨201, ⟨some (pyStr "abc")⟩, none⟩
    (pyStr "release-2.15.3.01") (pyStr "develop") false (by decide)

/-- C5: during release-branch creation and the QA flow, every changelog
ticket in the batch is attempted: a link failure (an HTTP error, surfacing
as a `RequestException`) is recorded and skipped, the remaining links are
still attempted (one log entry per ticket, in order, `false` marking the
failed ones), and control still reaches the `create_pre_release` call —
no single failed link aborts the batch or the release creation. -/
theorem claim_C5_link_failures_skipped (changeIds : List (List Char))
    (linkResp : List Char → JiraResp) (preRelease : Except PyExc Unit) :
    link_changelog_tickets changeIds linkResp =
      .ok (changeIds.map (fun id => (id, decide ((linkResp id).status_code < 400)))) ∧
    (qa_flow changeIds linkResp preRelease).2 = true := by
  have hloop : ∀ ids : List (List Char), link_changelog_tickets ids linkResp =
      .ok (ids.map (fun id => (id, decide ((linkResp id).status_code < 400)))) := by
    intro ids
    induction ids with
    | nil => rfl
    | cons id rest ih =>
      unfold link_changelog_tickets
      by_cases hs : 400 ≤ (linkResp id).status_code
      · have hd : decide ((linkResp id).status_code < 400) = false := by
          simp
          omega
        simp [link_issues, hs, PyExc.isRequestException, ih, hd]
      · have hd : decide ((linkResp id).status_code < 400) = true := by
          simp
          omega
        simp [link_issues, hs, ih, hd]
  refine ⟨hloop changeIds, ?_⟩
  unfold qa_flow
  rw [hloop changeIds]

theorem filter_head?_eq_find? {α : Type} (p : α → Bool) (l : List α) :
    (l.filter p).head? = l.find? p := by
  induction l with
  | nil => rfl
  | cons x l ih =>
    by_cases hx : p x
    · simp [List.filter_cons, List.find?_cons, hx]
    · simp [List.filter_cons, List.find?_cons, hx, ih]

/-- C10: when the releases-listing GET succeeds, `latest_prerelease`
returns the first entry of the listing whose `prerelease` field is truthy
(`List.find?` over the listing, an unparseable body counting as an empty
listing), and in particular returns `None` exactly when no entry of the
listing is prerelease-flagged. -/
theorem claim_C10_latest_prerelease (resp : HttpResp (Option (List ReleaseBody)))
    (hok : resp.status_code ≤ 299) :
    latest_prerelease resp =
      .ok ((parsed_releases resp.body).find? (fun x => x.prerelease = some true)) ∧
    (latest_prerelease resp = .ok none ↔
      ∀ x ∈ parsed_releases resp.body, ¬ x.prerelease = some true) := by
  have h1 : ¬ resp.status_code > 299 := by omega
  have hpre : prereleases resp =
      .ok ((parsed_releases resp.body).filter (fun x => x.prerelease = some true)) := by
    unfold prereleases send_request
    rw [if_neg h1]
  have hmain : latest_prerelease resp =
      .ok ((parsed_releases resp.body).find? (fun x => x.prerelease = some true)) := by
    unfold latest_prerelease
    rw [hpre, ← filter_head?_eq_find?]
    cases hfil : (parsed_releases resp.body).filter (fun x => x.prerelease = some true) with
    | nil => rfl
    | cons x xs => rfl
  refine ⟨hmain, ?_⟩
  rw [hmain]
  constructor
  · intro hnone
    have hfnone : ((parsed_releases resp.body).find?
        (fun x => x.prerelease = some true)) = none := by
      cases hc : ((parsed_releases resp.body).find?
          (fun x => x.prerelease = some true)) with
      | none => rfl
      | some y =>
        rw [hc] at hnone
        cases hnone
    intro x hx
    have := List.find?_eq_none.1 hfnone x hx
    simpa using this
  · intro hall
    have hfnone : ((parsed_releases resp.body).find?
        (fun x => x.prerelease = some true)) = none := by
      rw [List.find?_eq_none]
      intro x hx
      simpa using hall x hx
    rw [hfnone]

/-- C10 witness: a 200 listing whose first prerelease-flagged entry is the
second element. -/
theorem claim_C10_latest_prerelease_witness :
    latest_prerelease ⟨200, some [⟨some (pyStr "r1"), some (pyStr "2.15.3.1"), some false⟩,
        ⟨some (pyStr "r2"), some (pyStr "2.15.3.2"), some true⟩,
        ⟨some (pyStr "r3"), some (pyStr "2.15.3.3"), some true⟩], none⟩ =
      .ok (some ⟨some (pyStr "r2"), some (pyStr "2.15.3.2"), some true⟩) := by
  rw [(claim_C10_latest_prerelease ⟨200, some [⟨some (pyStr "r1"), some (pyStr "2.15.3.1"), some false⟩,
        ⟨some (pyStr "r2"), some (pyStr "2.15.3.2"), some true⟩,
        ⟨some (pyStr "r3"), some (pyStr "2.15.3.3"), some true⟩], none⟩ (by decide)).1]
  rfl


end Octoeb
